import Mathlib

/-!
Verification of the snake game core (`src/snake_game.py`).

The embedding models the `SnakeGame` widget's game state and its five
mutating operations: `reset_game`, `place_food`, `game_loop` (one tick),
`change_direction`, and `toggle_pause`.  The global random source used by
`place_food` (successive `random.randint(0, WIDTH-1)` / `random.randint(0,
HEIGHT-1)` pairs) is modelled by an explicit list of drawn cells; the
rejection-sampling loop returns `none` when the supplied draws are
exhausted, so fallible paths live in `Option`.
-/

namespace Snake

/-- Grid cell, an integer pair `(x, y)`.  Coordinates are `Int` because the
tentative new head may temporarily lie outside the grid (e.g. `x = -1`)
before the wall check rejects it. -/
abbrev Cell : Type := Int × Int

/-- Movement direction, mirroring the Python `Direction` enum. -/
inductive Direction : Type
  | UP
  | DOWN
  | LEFT
  | RIGHT
deriving DecidableEq, Repr

/-- Grid width constant (`SnakeGame.WIDTH = 30`). -/
def WIDTH : Int := 30

/-- Grid height constant (`SnakeGame.HEIGHT = 20`). -/
def HEIGHT : Int := 20

/-- Mutable state of the `SnakeGame` widget: the reactive attributes
`snake` (head first), `food`, `direction`, `score`, `game_over`, `paused`. -/
structure GameState where
  snake : List Cell
  food : Cell
  direction : Direction
  score : Nat
  game_over : Bool
  paused : Bool
deriving DecidableEq, Repr

/-- Opposite direction, mirroring the `opposites` dictionary in
`change_direction`. -/
def opposite : Direction → Direction
  | .UP => .DOWN
  | .DOWN => .UP
  | .LEFT => .RIGHT
  | .RIGHT => .LEFT

/-- New head position: the current head offset one unit in the given
direction, as computed at the top of `game_loop`. -/
def new_head_of (head : Cell) (d : Direction) : Cell :=
  match d with
  | .UP => (head.1, head.2 - 1)
  | .DOWN => (head.1, head.2 + 1)
  | .LEFT => (head.1 - 1, head.2)
  | .RIGHT => (head.1 + 1, head.2)

/-- Rejection sampling of `place_food`: scan the successive random draws and
return the first one not on the snake; `none` when the draws run out (the
Python loop would keep sampling). -/
def place_food (snake : List Cell) : List Cell → Option Cell
  | [] => none
  | c :: rest => if c ∈ snake then place_food snake rest else some c

/-- One tick of `game_loop`.  Returns `none` only when the Python code
would not terminate normally: an empty snake (index error on `snake[0]`)
or exhausted food draws. -/
def game_loop (draws : List Cell) (s : GameState) : Option GameState :=
  if s.game_over || s.paused then some s
  else
    match s.snake with
    | [] => none
    | head :: _ =>
      let new_head := new_head_of head s.direction
      if new_head.1 < 0 ∨ WIDTH ≤ new_head.1 ∨ new_head.2 < 0 ∨ HEIGHT ≤ new_head.2 then
        some { s with game_over := true }
      else if new_head ∈ s.snake then
        some { s with game_over := true }
      else
        -- `self.snake.insert(0, new_head)` happens before the food check.
        let grown := new_head :: s.snake
        if new_head = s.food then
          match place_food grown draws with
          | none => none
          | some f => some { s with snake := grown, food := f, score := s.score + 10 }
        else
          some { s with snake := grown.dropLast }

/-- Direction change (`change_direction`): no-op when the game is over or
when the opposite of the requested direction equals the current one. -/
def change_direction (s : GameState) (new_direction : Direction) : GameState :=
  if s.game_over then s
  else if opposite new_direction = s.direction then s
  else { s with direction := new_direction }

/-- Pause toggle (`toggle_pause`): flips `paused` unless the game is over. -/
def toggle_pause (s : GameState) : GameState :=
  if s.game_over then s else { s with paused := !s.paused }

/-- Full reinitialization (`reset_game`): overwrite every field with the
initial configuration, then place food.  `none` when the draws run out. -/
def reset_game (s : GameState) (draws : List Cell) : Option GameState :=
  let start_x : Int := WIDTH / 2
  let start_y : Int := HEIGHT / 2
  let s1 : GameState :=
    { s with
      snake := [(start_x, start_y), (start_x - 1, start_y), (start_x - 2, start_y)]
      direction := .RIGHT
      score := 0
      game_over := false
      paused := false }
  match place_food s1.snake draws with
  | none => none
  | some f => some { s1 with food := f }

/-- A cell lies in the grid `[0, WIDTH) × [0, HEIGHT)`; this is the range
`random.randint(0, WIDTH - 1) × random.randint(0, HEIGHT - 1)` draws from. -/
def InBounds (c : Cell) : Bool :=
  decide (0 ≤ c.1 ∧ c.1 < WIDTH ∧ 0 ≤ c.2 ∧ c.2 < HEIGHT)

/-- States reachable from a reset via `step` / `setDirection` /
`togglePause` / `reset`, where every random draw is what `randint` can
return: an in-bounds cell. -/
inductive Reachable : GameState → Prop
  | reset (s0 s : GameState) (draws : List Cell)
      (hb : ∀ c ∈ draws, InBounds c = true)
      (h : reset_game s0 draws = some s) : Reachable s
  | step (s s' : GameState) (draws : List Cell)
      (hb : ∀ c ∈ draws, InBounds c = true)
      (hr : Reachable s) (h : game_loop draws s = some s') : Reachable s'
  | dir (s : GameState) (d : Direction) (hr : Reachable s) :
      Reachable (change_direction s d)
  | pause (s : GameState) (hr : Reachable s) :
      Reachable (toggle_pause s)

/-- Two directions are perpendicular when they are neither equal nor
opposite. -/
def Perpendicular (a b : Direction) : Prop := a ≠ b ∧ a ≠ opposite b

/-! ### Helper lemmas -/

theorem opposite_opposite (d : Direction) : opposite (opposite d) = d := by
  cases d <;> rfl

theorem place_food_eq_some (snake : List Cell) (draws : List Cell) (f : Cell)
    (h : place_food snake draws = some f) : f ∈ draws ∧ f ∉ snake := by
  induction draws with
  | nil => simp [place_food] at h
  | cons c rest ih =>
    by_cases hc : c ∈ snake
    · simp only [place_food, if_pos hc] at h
      obtain ⟨h1, h2⟩ := ih h
      exact ⟨List.mem_cons_of_mem _ h1, h2⟩
    · simp only [place_food, if_neg hc, Option.some.injEq] at h
      subst h
      exact ⟨List.mem_cons_self _ _, hc⟩

/-- Characterization of one tick on a running, unpaused state with a
nonempty snake, phrased through `InBounds`. -/
theorem game_loop_eq (draws : List Cell) (s : GameState)
    (head : Cell) (rest : List Cell) (hsnake : s.snake = head :: rest)
    (hgo : s.game_over = false) (hp : s.paused = false) :
    game_loop draws s =
      (let nh := new_head_of head s.direction
       if InBounds nh = true then
         if nh ∈ s.snake then some { s with game_over := true }
         else if nh = s.food then
           match place_food (nh :: s.snake) draws with
           | none => none
           | some f => some { s with snake := nh :: s.snake, food := f, score := s.score + 10 }
         else some { s with snake := (nh :: s.snake).dropLast }
       else some { s with game_over := true }) := by
  by_cases hw : (new_head_of head s.direction).1 < 0 ∨ WIDTH ≤ (new_head_of head s.direction).1 ∨
      (new_head_of head s.direction).2 < 0 ∨ HEIGHT ≤ (new_head_of head s.direction).2
  · have hin : InBounds (new_head_of head s.direction) = false := by
      simp only [InBounds, decide_eq_false_iff_not]
      omega
    simp [game_loop, hsnake, hgo, hp, hw, hin]
  · have hin : InBounds (new_head_of head s.direction) = true := by
      simp only [InBounds, decide_eq_true_eq]
      omega
    simp only [game_loop, hsnake, hgo, hp, Bool.or_self, Bool.false_eq_true, if_false, hin,
      if_true, if_neg hw]

/-- Characterization of a successful `reset_game`: the result is the fixed
initial configuration with a food cell accepted by the rejection sampling. -/
theorem reset_game_eq (s s' : GameState) (draws : List Cell)
    (h : reset_game s draws = some s') :
    ∃ f, place_food [((15 : Int), (10 : Int)), (14, 10), (13, 10)] draws = some f ∧
      s' = { snake := [(15, 10), (14, 10), (13, 10)], food := f,
             direction := Direction.RIGHT, score := 0,
             game_over := false, paused := false } := by
  simp only [reset_game, WIDTH, HEIGHT] at h
  norm_num at h
  rcases hf : place_food [((15 : Int), (10 : Int)), (14, 10), (13, 10)] draws with _ | f
  · rw [hf] at h
    exact absurd h (by simp)
  · rw [hf] at h
    simp only [Option.some.injEq] at h
    exact ⟨f, rfl, h.symm⟩

/-- State invariant maintained by every operation: the snake has no
duplicate cells, the food is off the snake, and the score is ten points per
cell grown beyond the initial three. -/
def Inv (s : GameState) : Prop :=
  s.snake.Nodup ∧ s.food ∉ s.snake ∧
    s.score = 10 * (s.snake.length - 3) ∧ 3 ≤ s.snake.length

theorem reset_game_inv (s s' : GameState) (draws : List Cell)
    (h : reset_game s draws = some s') : Inv s' := by
  obtain ⟨f, hf, rfl⟩ := reset_game_eq s s' draws h
  obtain ⟨-, hf2⟩ := place_food_eq_some _ _ _ hf
  refine ⟨?_, hf2, rfl, ?_⟩
  · show ([((15 : Int), (10 : Int)), (14, 10), (13, 10)] : List Cell).Nodup
    decide
  · show 3 ≤ ([((15 : Int), (10 : Int)), (14, 10), (13, 10)] : List Cell).length
    decide

theorem game_loop_inv (draws : List Cell) (s s' : GameState)
    (hs : Inv s) (h : game_loop draws s = some s') : Inv s' := by
  obtain ⟨hnd, hfm, hsc, hlen⟩ := hs
  by_cases hstop : s.game_over || s.paused
  · simp only [game_loop, if_pos hstop, Option.some.injEq] at h
    subst h
    exact ⟨hnd, hfm, hsc, hlen⟩
  · simp only [Bool.or_eq_true, not_or, Bool.not_eq_true] at hstop
    cases hsnake : s.snake with
    | nil => simp [hsnake] at hlen
    | cons head rest =>
      rw [game_loop_eq draws s head rest hsnake hstop.1 hstop.2] at h
      set nh := new_head_of head s.direction with hnh
      by_cases hin : InBounds nh = true
      · rw [if_pos hin] at h
        by_cases hself : nh ∈ s.snake
        · rw [if_pos hself, Option.some.injEq] at h
          subst h
          exact ⟨hnd, hfm, hsc, hlen⟩
        · rw [if_neg hself] at h
          by_cases hfood : nh = s.food
          · rw [if_pos hfood] at h
            rcases hpf : place_food (nh :: s.snake) draws with _ | f
            · rw [hpf] at h
              exact absurd h (by simp)
            · rw [hpf, Option.some.injEq] at h
              subst h
              obtain ⟨-, hf2⟩ := place_food_eq_some _ _ _ hpf
              refine ⟨List.nodup_cons.2 ⟨hself, hnd⟩, hf2, ?_, ?_⟩
              · simp only [List.length_cons]
                omega
              · simp only [List.length_cons]
                omega
          · rw [if_neg hfood, Option.some.injEq] at h
            subst h
            have hnds : (nh :: s.snake).Nodup := List.nodup_cons.2 ⟨hself, hnd⟩
            refine ⟨hnds.sublist (List.dropLast_sublist _), ?_, ?_, ?_⟩
            · intro hmem
              have : s.food ∈ nh :: s.snake := (List.dropLast_sublist _).subset hmem
              rcases List.mem_cons.1 this with h1 | h1
              · exact hfood h1.symm
              · exact hfm h1
            · simp only [List.dropLast_concat_getLast, List.length_dropLast, List.length_cons]
              omega
            · simp only [List.length_dropLast, List.length_cons]
              omega
      · rw [if_neg hin, Option.some.injEq] at h
        subst h
        exact ⟨hnd, hfm, hsc, hlen⟩

theorem change_direction_inv (s : GameState) (d : Direction)
    (hs : Inv s) : Inv (change_direction s d) := by
  unfold change_direction
  split
  · exact hs
  · split
    · exact hs
    · exact hs

theorem toggle_pause_inv (s : GameState) (hs : Inv s) : Inv (toggle_pause s) := by
  unfold toggle_pause
  split
  · exact hs
  · exact hs

theorem reachable_inv (s : GameState) (h : Reachable s) : Inv s := by
  induction h with
  | reset s0 s draws hb h => exact reset_game_inv s0 s draws h
  | step s s' draws hb hr h ih => exact game_loop_inv draws s s' ih h
  | dir s d hr ih => exact change_direction_inv s d ih
  | pause s hr ih => exact toggle_pause_inv s ih

/-! ### Concrete states used by witnesses -/

/-- Concrete state: the deterministic reset configuration, food at the origin. -/
def sStart : GameState :=
  { snake := [(15, 10), (14, 10), (13, 10)], food := (0, 0),
    direction := .RIGHT, score := 0, game_over := false, paused := false }

/-- Concrete state one cell to the left of its food. -/
def sEat : GameState := { sStart with food := (16, 10) }

/-- Concrete state right after `sEat` eats its food with draw `(0, 0)`. -/
def sEatAfter : GameState :=
  { snake := [(16, 10), (15, 10), (14, 10), (13, 10)], food := (0, 0),
    direction := .RIGHT, score := 10, game_over := false, paused := false }

/-- Concrete state heading left out of the grid at `x = 0`. -/
def sWall : GameState :=
  { snake := [(0, 10), (1, 10), (2, 10)], food := (5, 5),
    direction := .LEFT, score := 0, game_over := false, paused := false }

/-- Concrete state whose next head cell is its own current tail. -/
def sTail : GameState :=
  { snake := [(5, 5), (6, 5), (6, 6), (5, 6)], food := (0, 0),
    direction := .DOWN, score := 10, game_over := false, paused := false }

/-! ### Claims -/

/-- Claim C1: on a running, unpaused tick whose new head cell equals the
food and causes no wall or self collision, `step()` prepends the new head
without removing the tail (length grows by exactly one) and adds exactly
ten to the score. -/
theorem step_growth (draws : List Cell) (s s' : GameState)
    (head : Cell) (rest : List Cell) (hsnake : s.snake = head :: rest)
    (hgo : s.game_over = false) (hp : s.paused = false)
    (hin : InBounds (new_head_of head s.direction) = true)
    (hself : new_head_of head s.direction ∉ s.snake)
    (hfood : new_head_of head s.direction = s.food)
    (h : game_loop draws s = some s') :
    s'.snake = new_head_of head s.direction :: s.snake ∧
    s'.snake.length = s.snake.length + 1 ∧
    s'.score = s.score + 10 := by
  rw [game_loop_eq draws s head rest hsnake hgo hp] at h
  simp only [if_pos hin, if_neg hself, if_pos hfood] at h
  rcases hpf : place_food (new_head_of head s.direction :: s.snake) draws with _ | f
  · rw [hpf] at h
    exact absurd h (by simp)
  · rw [hpf, Option.some.injEq] at h
    subst h
    exact ⟨rfl, by simp, rfl⟩

theorem step_growth_witness :
    sEatAfter.snake = new_head_of (15, 10) sEat.direction :: sEat.snake ∧
    sEatAfter.snake.length = sEat.snake.length + 1 ∧
    sEatAfter.score = sEat.score + 10 :=
  step_growth [((0 : Int), (0 : Int))] sEat sEatAfter (15, 10) [(14, 10), (13, 10)]
    rfl rfl rfl (by decide) (by decide) (by decide) (by decide)

/-- Claim C2: on a running, unpaused tick whose new head cell lies outside
the grid, `step()` only sets `game_over`; snake, food, score, direction and
paused are untouched. -/
theorem step_wall_collision (draws : List Cell) (s : GameState)
    (head : Cell) (rest : List Cell) (hsnake : s.snake = head :: rest)
    (hgo : s.game_over = false) (hp : s.paused = false)
    (hout : InBounds (new_head_of head s.direction) = false) :
    game_loop draws s = some { s with game_over := true } := by
  rw [game_loop_eq draws s head rest hsnake hgo hp]
  simp only [hout, Bool.false_eq_true, if_false]

theorem step_wall_collision_witness :
    game_loop [] sWall = some { sWall with game_over := true } :=
  step_wall_collision [] sWall (0, 10) [(1, 10), (2, 10)] rfl rfl rfl (by decide)

/-- Claim C3: on a running, unpaused tick whose new head cell is inside the
grid but lies on the pre-move snake body — the current tail included —
`step()` only sets `game_over` and leaves the snake unchanged. -/
theorem step_self_collision (draws : List Cell) (s : GameState)
    (head : Cell) (rest : List Cell) (hsnake : s.snake = head :: rest)
    (hgo : s.game_over = false) (hp : s.paused = false)
    (hin : InBounds (new_head_of head s.direction) = true)
    (hself : new_head_of head s.direction ∈ s.snake) :
    game_loop draws s = some { s with game_over := true } := by
  rw [game_loop_eq draws s head rest hsnake hgo hp]
  simp only [if_pos hin, if_pos hself]

theorem step_self_collision_witness :
    sTail.snake.getLast? = some (new_head_of (5, 5) sTail.direction) ∧
    game_loop [] sTail = some { sTail with game_over := true } :=
  ⟨by decide,
    step_self_collision [] sTail (5, 5) [(6, 5), (6, 6), (5, 6)] rfl rfl rfl
      (by decide) (by decide)⟩

/-- Claim C4: `setDirection(d)` is a whole-state no-op when the game is
over; otherwise it is a no-op exactly when `d` is the opposite of the
current direction, and sets `direction := d` otherwise; in particular
requesting the opposite never changes the direction. -/
theorem change_direction_spec (s : GameState) (d : Direction) :
    (s.game_over = true → change_direction s d = s) ∧
    (s.game_over = false → d = opposite s.direction → change_direction s d = s) ∧
    (s.game_over = false → d ≠ opposite s.direction →
      change_direction s d = { s with direction := d }) ∧
    (change_direction s (opposite s.direction)).direction = s.direction := by
  refine ⟨?_, ?_, ?_, ?_⟩
  · intro h
    simp [change_direction, h]
  · intro h hd
    subst hd
    simp [change_direction, h, opposite_opposite]
  · intro h hd
    have hne : opposite d ≠ s.direction := fun he => hd (by rw [← he, opposite_opposite])
    simp [change_direction, h, hne]
  · cases hb : s.game_over
    · simp [change_direction, hb, opposite_opposite]
    · simp [change_direction, hb]

theorem change_direction_spec_witness :
    change_direction sStart Direction.UP = { sStart with direction := Direction.UP } :=
  (change_direction_spec sStart Direction.UP).2.2.1 rfl (by decide)

/-- Claim C6: `step()` is the identity on the whole state while the game is
paused or over. -/
theorem step_paused_identity (draws : List Cell) (s : GameState)
    (h : s.paused = true ∨ s.game_over = true) :
    game_loop draws s = some s := by
  rcases h with h | h <;> simp [game_loop, h]

theorem step_paused_identity_witness :
    game_loop [] { sStart with paused := true } = some { sStart with paused := true } :=
  step_paused_identity [] { sStart with paused := true } (Or.inl rfl)

/-- Claim C7: after a successful `reset()` from any state, the snake is the
three centered cells with the head rightmost, the direction is Right, the
score is zero, the flags are cleared, and the food is an in-grid cell off
the snake. -/
theorem reset_game_spec (s s' : GameState) (draws : List Cell)
    (hb : ∀ c ∈ draws, InBounds c = true)
    (h : reset_game s draws = some s') :
    s'.snake = [((15 : Int), (10 : Int)), (14, 10), (13, 10)] ∧
    s'.direction = Direction.RIGHT ∧ s'.score = 0 ∧
    s'.game_over = false ∧ s'.paused = false ∧
    InBounds s'.food = true ∧ s'.food ∉ s'.snake := by
  obtain ⟨f, hf, rfl⟩ := reset_game_eq s s' draws h
  obtain ⟨hf1, hf2⟩ := place_food_eq_some _ _ _ hf
  exact ⟨rfl, rfl, rfl, rfl, rfl, hb f hf1, hf2⟩

theorem reset_game_spec_witness :
    sStart.snake = [((15 : Int), (10 : Int)), (14, 10), (13, 10)] ∧
    sStart.direction = Direction.RIGHT ∧ sStart.score = 0 ∧
    sStart.game_over = false ∧ sStart.paused = false ∧
    InBounds sStart.food = true ∧ sStart.food ∉ sStart.snake :=
  reset_game_spec sWall sStart [((0 : Int), (0 : Int))] (by decide) (by decide)

/-- Claim C8: on a running, unpaused tick with no collision and the new
head off the food, `step()` prepends the new head and drops the tail, so
snake length and score are unchanged. -/
theorem step_conservation (draws : List Cell) (s : GameState)
    (head : Cell) (rest : List Cell) (hsnake : s.snake = head :: rest)
    (hgo : s.game_over = false) (hp : s.paused = false)
    (hin : InBounds (new_head_of head s.direction) = true)
    (hself : new_head_of head s.direction ∉ s.snake)
    (hfood : new_head_of head s.direction ≠ s.food) :
    game_loop draws s =
      some { s with snake := (new_head_of head s.direction :: s.snake).dropLast } ∧
    ((new_head_of head s.direction :: s.snake).dropLast).length = s.snake.length ∧
    ({ s with snake := (new_head_of head s.direction :: s.snake).dropLast } : GameState).score
      = s.score := by
  refine ⟨?_, ?_, rfl⟩
  · rw [game_loop_eq draws s head rest hsnake hgo hp]
    simp only [if_pos hin, if_neg hself, if_neg hfood]
  · simp

theorem step_conservation_witness :
    game_loop [] sStart =
      some { sStart with snake := (new_head_of (15, 10) sStart.direction :: sStart.snake).dropLast } ∧
    ((new_head_of (15, 10) sStart.direction :: sStart.snake).dropLast).length
      = sStart.snake.length ∧
    ({ sStart with snake := (new_head_of (15, 10) sStart.direction :: sStart.snake).dropLast }
      : GameState).score = sStart.score :=
  step_conservation [] sStart (15, 10) [(14, 10), (13, 10)] rfl rfl rfl
    (by decide) (by decide) (by decide)

/-- Claim C9: with the game running and direction `d`, calling
`setDirection` with a direction perpendicular to `d` and then with the
opposite of `d` before the next tick commits the full reversal: the second
call is checked against the already-updated direction, not against `d`. -/
theorem double_turn_reversal (s : GameState) (p : Direction)
    (hgo : s.game_over = false) (hp : Perpendicular p s.direction) :
    (change_direction (change_direction s p) (opposite s.direction)).direction =
      opposite s.direction := by
  obtain ⟨h1, h2⟩ := hp
  have hop : opposite p ≠ s.direction := fun he => h2 (by rw [← he, opposite_opposite])
  have e1 : change_direction s p = { s with direction := p } := by
    simp [change_direction, hgo, hop]
  rw [e1]
  have h3 : opposite (opposite s.direction) ≠ p := by
    rw [opposite_opposite]
    exact fun he => h1 he.symm
  simp [change_direction, hgo, h3]

theorem double_turn_reversal_witness :
    (change_direction (change_direction sStart Direction.UP)
      (opposite sStart.direction)).direction = opposite sStart.direction :=
  double_turn_reversal sStart Direction.UP rfl ⟨by decide, by decide⟩

/-- Claim C5: in every state reachable through the game's operations, the
snake has no duplicate cells and the food is never on the snake. -/
theorem reachable_no_overlap (s : GameState) (h : Reachable s) :
    s.snake.Nodup ∧ s.food ∉ s.snake :=
  ⟨(reachable_inv s h).1, (reachable_inv s h).2.1⟩

theorem reachable_no_overlap_witness :
    sStart.snake.Nodup ∧ sStart.food ∉ sStart.snake :=
  reachable_no_overlap sStart
    (Reachable.reset sStart sStart [((0 : Int), (0 : Int))] (by decide) (by decide))

/-- Claim C10: in every reachable state the score equals ten times the
number of cells grown beyond the initial three, so it is a non-negative
multiple of ten determined by the snake's length. -/
theorem reachable_score_length (s : GameState) (h : Reachable s) :
    s.score = 10 * (s.snake.length - 3) ∧ 3 ≤ s.snake.length :=
  ⟨(reachable_inv s h).2.2.1, (reachable_inv s h).2.2.2⟩

theorem reachable_score_length_witness :
    sStart.score = 10 * (sStart.snake.length - 3) ∧ 3 ≤ sStart.snake.length :=
  reachable_score_length sStart
    (Reachable.reset sWall sStart [((0 : Int), (0 : Int))] (by decide) (by decide))

end Snake
